import Mathlib

/-!
# Memo-Audio verification

A shallow embedding of the Memo-Audio voice-journaling client's
capture / transport / analysis pipeline, with proofs of the specified
properties.

Embedded source files:
* `services/geminiService.ts` (`processAudioEntry`, `decode`,
  `decodeAudioData`, `playEloquenceTTS`);
* `components/AudioRecorder.tsx` (`startRecording`, `stopRecording`,
  the chunk handlers, `blobToBase64`, `App`'s `handleRecordingComplete`
  and entry-persistence effect);
* `components/EntryDetail.tsx` (`handlePlayTTS`);
* `types.ts` (the data model).

Bytes are modelled as `Nat` values below 256, byte buffers as
`List Nat`, JavaScript `undefined` as `Option.none`, thrown exceptions
as `Except.error`, and audio sample amplitudes as exact rationals.
-/

namespace MemoAudio

/-! ## JSON values (the shape of `JSON.parse` output) -/

/-- A parsed JSON value, as produced by `JSON.parse` on the remote
service's text payload. -/
inductive Json where
  | null : Json
  | bool : Bool → Json
  | num : Int → Json
  | str : String → Json
  | arr : List Json → Json
  | obj : List (String × Json) → Json

/-- First-match key lookup in a JSON object's field list. -/
def lookupField : List (String × Json) → String → Option Json
  | [], _ => none
  | (k, v) :: rest, key => if k = key then some v else lookupField rest key

/-- JavaScript property access `parsed.key`: `none` models `undefined`,
which is what a missing key (or access on a non-object) yields. -/
def Json.get (j : Json) (key : String) : Option Json :=
  match j with
  | .obj fields => lookupField fields key
  | _ => none

/-! ## Data model (`types.ts`) -/

/-- `EloquenceMetrics` from `types.ts`. -/
structure EloquenceMetrics where
  clarity : Int
  assertiveness : Int
  vocabularyRichness : Int
  pace : String
  deriving DecidableEq

/-- `ImprovementSuggestion` from `types.ts`. -/
structure ImprovementSuggestion where
  original : String
  improved : String
  reason : String
  deriving DecidableEq

/-- `EloquenceExercise` from `types.ts`. -/
structure EloquenceExercise where
  focusPoint : String
  explanation : String
  exampleOriginal : String
  exampleImproved : String
  instruction : String
  deriving DecidableEq

/-- The union type `EloquenceExercise | string` of
`AnalysisResult.eloquenceTip` (legacy entries stored a plain string). -/
inductive EloquenceTip where
  | exercise : EloquenceExercise → EloquenceTip
  | legacy : String → EloquenceTip
  deriving DecidableEq

/-- `AnalysisResult` from `types.ts`. -/
structure AnalysisResult where
  transcription : Option String
  summary : String
  mood : String
  tags : List String
  metrics : EloquenceMetrics
  suggestions : List ImprovementSuggestion
  eloquenceTip : EloquenceTip
  deepAnalysis : String
  deriving DecidableEq

/-- `ExerciseFeedback` from `types.ts`. -/
structure ExerciseFeedback where
  success : Bool
  score : Int
  critique : String
  transcription : String
  deriving DecidableEq

/-- `JournalEntry` from `types.ts`; `audioUrl` and `exerciseFeedback`
are the optional fields, `analysis` may be `null`. -/
structure JournalEntry where
  id : String
  date : String
  transcription : String
  analysis : Option AnalysisResult
  audioUrl : Option String
  isProcessing : Bool
  exerciseFeedback : Option ExerciseFeedback
  deriving DecidableEq

/-! ## PCM decoding (`decodeAudioData` in `geminiService.ts`) -/

/-- The signed 16-bit integer whose little-endian bytes are `lo, hi`,
exactly as an `Int16Array` element views two consecutive bytes. -/
def int16OfBytes (lo hi : Nat) : Int :=
  let u := lo + 256 * hi
  if u < 32768 then (u : Int) else (u : Int) - 65536

/-- The `Int16Array` view over a byte buffer: consecutive byte pairs
become little-endian signed 16-bit samples (a trailing odd byte never
reaches this point because the view construction throws first). -/
def toInt16List : List Nat → List Int
  | [] => []
  | [_] => []
  | b0 :: b1 :: rest => int16OfBytes b0 b1 :: toInt16List rest

/-- The inner loop of `decodeAudioData`: channel `channel`'s sample
array, where frame `i` holds sample `i * numChannels + channel`
normalized by division by 32768. -/
def channelSamples (samples : List Int) (numChannels channel frameCount : Nat) :
    List ℚ :=
  (List.range frameCount).map
    (fun i => ((samples.getD (i * numChannels + channel) 0 : Int) : ℚ) / 32768)

/-- `decodeAudioData` from `geminiService.ts`: builds an `Int16Array`
view over the bytes (throws a `RangeError` when the byte length is odd),
computes `frameCount = dataInt16.length / numChannels`, then calls
`ctx.createBuffer(numChannels, frameCount, sampleRate)`, which throws a
`NotSupportedError` when the channel count or the frame count is zero;
otherwise it fills each channel with its interleaved samples divided by
32768. -/
def decodeAudioData (data : List Nat) (numChannels : Nat) :
    Except String (List (List ℚ)) :=
  if data.length % 2 ≠ 0 then
    .error "RangeError: byte length of Int16Array should be a multiple of 2"
  else if numChannels = 0 ∨ (toInt16List data).length / numChannels = 0 then
    .error "NotSupportedError: createBuffer requires a positive channel and frame count"
  else
    let dataInt16 := toInt16List data
    let frameCount := dataInt16.length / numChannels
    .ok ((List.range numChannels).map
      (fun channel => channelSamples dataInt16 numChannels channel frameCount))

/-! ## Base64 transfer encoding (`blobToBase64` / `decode`) -/

/-- The base64 alphabet: the character code of sextet `n`. -/
def base64Char (n : Nat) : Nat :=
  if n < 26 then 65 + n
  else if n < 52 then 97 + (n - 26)
  else if n < 62 then 48 + (n - 52)
  else if n = 62 then 43
  else 47

/-- The inverse alphabet used by `atob`: sextet of character code `c`. -/
def base64Index (c : Nat) : Nat :=
  if 65 ≤ c ∧ c ≤ 90 then c - 65
  else if 97 ≤ c ∧ c ≤ 122 then 26 + (c - 97)
  else if 48 ≤ c ∧ c ≤ 57 then 52 + (c - 48)
  else if c = 43 then 62
  else 63

/-- `blobToBase64` from `AudioRecorder.tsx`: `FileReader.readAsDataURL`
base64-encodes the blob's bytes (groups of three bytes become four
alphabet characters, a final partial group is padded with `=`, code 61),
and the handler splits off the `data:...;base64,` prefix, leaving
exactly this character-code sequence. -/
def blobToBase64 : List Nat → List Nat
  | [] => []
  | [b0] => [base64Char (b0 / 4), base64Char (b0 % 4 * 16), 61, 61]
  | [b0, b1] => [base64Char (b0 / 4), base64Char (b0 % 4 * 16 + b1 / 16),
      base64Char (b1 % 16 * 4), 61]
  | b0 :: b1 :: b2 :: rest =>
      base64Char (b0 / 4) :: base64Char (b0 % 4 * 16 + b1 / 16) ::
      base64Char (b1 % 16 * 4 + b2 / 64) :: base64Char (b2 % 64) ::
      blobToBase64 rest

/-- `decode` from `geminiService.ts`: `atob` maps each four-character
group back to three bytes (two or three characters before `=` padding
yield one or two bytes), and the loop copies each `charCodeAt` result
into the `Uint8Array`. -/
def decode : List Nat → List Nat
  | c0 :: c1 :: c2 :: c3 :: rest =>
      if c2 = 61 then
        [base64Index c0 * 4 + base64Index c1 / 16]
      else if c3 = 61 then
        [base64Index c0 * 4 + base64Index c1 / 16,
         base64Index c1 % 16 * 16 + base64Index c2 / 4]
      else
        (base64Index c0 * 4 + base64Index c1 / 16) ::
        (base64Index c1 % 16 * 16 + base64Index c2 / 4) ::
        ((base64Index c2 % 4 * 64 + base64Index c3) :: decode rest)
  | _ => []

/-! ## Analysis orchestration (`processAudioEntry` in `geminiService.ts`) -/

/-- The record literal built from `parsed` by `processAudioEntry`: each
field is a plain projection of the parsed payload, so any field may be
absent (`none` models JavaScript `undefined`). -/
structure AnalysisFields where
  summary : Option Json
  mood : Option Json
  tags : Option Json
  metrics : Option Json
  deepAnalysis : Option Json
  suggestions : Option Json
  eloquenceTip : Option Json

/-- The response handling of `processAudioEntry` (`geminiService.ts`
lines 117-133).  The input is the remote payload after `JSON.parse`:
`none` when `response.text` is absent or empty, in which case the code
throws `"No response from Gemini"`.  Otherwise the parsed value's fields
are projected directly into the returned record — there is no presence
check on any field, so a missing key flows through as `undefined`. -/
def processAudioEntry (resultText : Option Json) :
    Except String (Option Json × AnalysisFields) :=
  match resultText with
  | none => .error "No response from Gemini"
  | some parsed =>
      .ok (parsed.get "transcription",
        { summary := parsed.get "summary", mood := parsed.get "mood",
          tags := parsed.get "tags", metrics := parsed.get "metrics",
          deepAnalysis := parsed.get "deepAnalysis",
          suggestions := parsed.get "suggestions",
          eloquenceTip := parsed.get "eloquenceTip" })

/-- A payload that parses as JSON and carries every required
`AnalysisResult` field except `metrics`. -/
def payloadMissingMetrics : Json :=
  Json.obj [("transcription", .str "Bonjour"), ("summary", .str "Une entrée."),
    ("mood", .str "calme"), ("tags", .arr [.str "journal"]),
    ("deepAnalysis", .str "Critique."), ("suggestions", .arr []),
    ("eloquenceTip", .obj [("focusPoint", .str "Les verbes."),
      ("explanation", .str "Ils portent le sens."),
      ("exampleOriginal", .str "on fait"), ("exampleImproved", .str "on bâtit"),
      ("instruction", .str "Répétez.")])]

/-! ## Capture session (`AudioRecorder.tsx` chunk handlers) -/

/-- The transient recording session: the ordered, append-only chunk
accumulator `chunksRef`. -/
structure RecordingSession where
  chunks : List (List Nat)

/-- The session as initialized by `startRecording`:
`chunksRef.current = []`. -/
def startRecordingSession : RecordingSession := ⟨[]⟩

/-- The `ondataavailable` handler: `if (e.data.size > 0)
chunksRef.current.push(e.data)`. -/
def ondataavailable (s : RecordingSession) (data : List Nat) :
    RecordingSession :=
  if 0 < data.length then { chunks := s.chunks ++ [data] } else s

/-- The session state after a sequence of data events, in arrival
order. -/
def sessionAfter (events : List (List Nat)) : RecordingSession :=
  events.foldl ondataavailable startRecordingSession

/-- The `onstop` handler's blob:
`new Blob(chunksRef.current, { type: 'audio/webm' })` concatenates the
accumulated chunks in order. -/
def onstopBlob (s : RecordingSession) : List Nat := s.chunks.flatten

/-! ## Recorder component state (`AudioRecorder.tsx`) -/

/-- Result of `navigator.mediaDevices.getUserMedia({ audio: true })`:
a live stream, or rejection (permission denied / no device). -/
inductive MicOutcome where
  | granted
  | denied (msg : String)

/-- Observable component state: the `isRecording` flag and the number of
concurrently live microphone streams it owns. -/
structure RecorderState where
  isRecording : Bool
  liveStreams : Nat

/-- What a call to `startRecording` produces for its caller: the new
component state, whether the catch block raised the permission alert,
and the error (if any) propagated out of the async function. -/
structure StartResult where
  state : RecorderState
  alerted : Bool
  thrown : Option String

/-- `startRecording` (`AudioRecorder.tsx` lines 75-107): on success it
acquires the stream, starts the recorder and sets `isRecording`; on
`getUserMedia` rejection the catch block logs the error and shows an
alert, and the async function resolves normally — nothing is rethrown,
so no error reaches the caller. -/
def startRecording (s : RecorderState) (mic : MicOutcome) : StartResult :=
  match mic with
  | .granted =>
      ⟨{ isRecording := true, liveStreams := s.liveStreams + 1 }, false, none⟩
  | .denied _ => ⟨s, true, none⟩

/-- `stopRecording`: guarded by `isRecording`; stops the recorder, whose
`onstop` handler stops every track of the stream. -/
def stopRecording (s : RecorderState) : RecorderState :=
  if s.isRecording then { isRecording := false, liveStreams := s.liveStreams - 1 }
  else s

/-- The component's initial state: not recording, no stream. -/
def recorderInit : RecorderState := ⟨false, 0⟩

/-- Observable component state with in-flight acquisitions made
explicit: `startRecording` suspends at `await getUserMedia(...)` and
only its continuation sets `isRecording`, so clicks and acquisition
resolutions interleave. `pendingAcq` counts `getUserMedia` calls whose
continuation has not run yet. -/
structure RecorderAsyncState where
  isRecording : Bool
  liveStreams : Nat
  pendingAcq : Nat

/-- Interleaved recorder events: a click on the record control, or the
resolution (grant / denial) of one pending `getUserMedia` call. -/
inductive RecEvent where
  | click
  | resolveGranted
  | resolveDenied

/-- One step of the recording component, at the granularity of its
suspension points. A click runs the button's
`isRecording ? stopRecording : startRecording` dispatch: stop ends the
current recorder (its `onstop` releases that stream), while start only
issues `getUserMedia` and suspends — `setIsRecording(true)` runs after
the `await`, so the flag is still false while an acquisition is
pending. A granted resolution runs the continuation: it acquires the
stream, replaces `mediaRecorderRef` and sets `isRecording`; a denied
resolution runs the catch block, leaving the state unchanged. -/
def recStep (s : RecorderAsyncState) : RecEvent → RecorderAsyncState
  | .click =>
      if s.isRecording then
        { s with isRecording := false, liveStreams := s.liveStreams - 1 }
      else
        { s with pendingAcq := s.pendingAcq + 1 }
  | .resolveGranted =>
      if 0 < s.pendingAcq then
        { isRecording := true, liveStreams := s.liveStreams + 1,
          pendingAcq := s.pendingAcq - 1 }
      else s
  | .resolveDenied =>
      if 0 < s.pendingAcq then { s with pendingAcq := s.pendingAcq - 1 }
      else s

/-- Component state after an interleaved event sequence, from the
initial state (not recording, no stream, nothing pending). -/
def recorderAsyncRun (events : List RecEvent) : RecorderAsyncState :=
  events.foldl recStep ⟨false, 0, 0⟩

/-! ## App-level pipeline completion (`handleRecordingComplete`) -/

/-- View states of the app (`ViewState` in `types.ts`). -/
inductive ViewState where
  | home
  | recording
  | details
  | search
  | settings
  deriving DecidableEq

/-- The app state touched by `handleRecordingComplete`. -/
structure AppState where
  view : ViewState
  entries : List JournalEntry
  selectedEntry : Option JournalEntry
  isProcessing : Bool

/-- Outcome of the awaited pipeline inside `handleRecordingComplete`:
`blobToBase64` rejecting, `processAudioEntry` throwing (transport
failure, empty response, or JSON parse failure), or a successful
analysis carrying the transcription and result. -/
inductive PipelineOutcome where
  | encodeFailed (msg : String)
  | analysisFailed (msg : String)
  | analysisOk (transcription : String) (res : AnalysisResult)

/-- `handleRecordingComplete` (`AudioRecorder.tsx` App, lines 282-315):
sets `isProcessing`, awaits encoding and analysis; on success it
prepends the new entry, selects it and switches to the details view; on
any failure the catch block only alerts, and `finally` clears
`isProcessing` — the entries collection is untouched. -/
def handleRecordingComplete (s : AppState) (newId tempAudioUrl nowDate : String)
    (outcome : PipelineOutcome) : AppState :=
  let s1 : AppState := { s with isProcessing := true }
  match outcome with
  | .encodeFailed _ => { s1 with isProcessing := false }
  | .analysisFailed _ => { s1 with isProcessing := false }
  | .analysisOk transcription res =>
      let newEntry : JournalEntry :=
        { id := newId, date := nowDate, transcription := transcription,
          analysis := some res, audioUrl := some tempAudioUrl,
          isProcessing := false, exerciseFeedback := none }
      { view := .details, entries := newEntry :: s1.entries,
        selectedEntry := some newEntry, isProcessing := false }

/-! ## TTS playback guard (`handlePlayTTS` in `EntryDetail.tsx`) -/

/-- The TTS handler's observable state: the `playingTTS` React state and
the number of `playEloquenceTTS` synthesis requests in flight. -/
structure TTSState where
  playingTTS : Option String
  inFlight : Nat

/-- Events driving the handler: a click invoking `handlePlayTTS` with a
text and an id, or the settling (fulfilment or rejection) of the
in-flight `playEloquenceTTS` promise. -/
inductive TTSEvent where
  | play (text id : String)
  | complete

/-- `handlePlayTTS` (`EntryDetail.tsx` lines 142-153): `if (playingTTS)
return;` — with a request in flight a call returns at once, issuing
nothing; otherwise it sets `playingTTS` and issues one synthesis
request, and the `finally` block clears the flag when the request
settles.  The guard and the flag assignment run synchronously before
the first suspension point, so a step is atomic. -/
def ttsStep (s : TTSState) : TTSEvent → TTSState
  | .play _ id =>
      if s.playingTTS.isSome then s
      else { playingTTS := some id, inFlight := s.inFlight + 1 }
  | .complete =>
      if 0 < s.inFlight then { playingTTS := none, inFlight := s.inFlight - 1 }
      else s

/-- Initial handler state: `useState<string | null>(null)`, nothing in
flight. -/
def ttsInit : TTSState := ⟨none, 0⟩

/-- Handler state after a sequence of events. -/
def ttsRun (events : List TTSEvent) : TTSState := events.foldl ttsStep ttsInit

/-! ## Entry persistence (`App`'s save effect) -/

/-- `JSON.stringify` image of an `EloquenceMetrics` record. -/
def metricsToJson (m : EloquenceMetrics) : Json :=
  .obj [("clarity", .num m.clarity), ("assertiveness", .num m.assertiveness),
    ("vocabularyRichness", .num m.vocabularyRichness), ("pace", .str m.pace)]

/-- `JSON.stringify` image of an `ImprovementSuggestion` record. -/
def suggestionToJson (s : ImprovementSuggestion) : Json :=
  .obj [("original", .str s.original), ("improved", .str s.improved),
    ("reason", .str s.reason)]

/-- `JSON.stringify` image of the `eloquenceTip` union. -/
def tipToJson : EloquenceTip → Json
  | .exercise e =>
      .obj [("focusPoint", .str e.focusPoint),
        ("explanation", .str e.explanation),
        ("exampleOriginal", .str e.exampleOriginal),
        ("exampleImproved", .str e.exampleImproved),
        ("instruction", .str e.instruction)]
  | .legacy s => .str s

/-- `JSON.stringify` image of an `AnalysisResult` record (an undefined
optional `transcription` is dropped by stringify). -/
def analysisResultToJson (a : AnalysisResult) : Json :=
  .obj ((match a.transcription with
      | none => []
      | some t => [("transcription", Json.str t)]) ++
    [("summary", .str a.summary), ("mood", .str a.mood),
      ("tags", .arr (a.tags.map .str)),
      ("metrics", metricsToJson a.metrics),
      ("suggestions", .arr (a.suggestions.map suggestionToJson)),
      ("eloquenceTip", tipToJson a.eloquenceTip),
      ("deepAnalysis", .str a.deepAnalysis)])

/-- `JSON.stringify` image of an `ExerciseFeedback` record. -/
def feedbackToJson (f : ExerciseFeedback) : Json :=
  .obj [("success", .bool f.success), ("score", .num f.score),
    ("critique", .str f.critique), ("transcription", .str f.transcription)]

/-- One record of the save effect
(`entries.map(({ audioUrl, ...rest }) => rest)` followed by
`JSON.stringify`, `AudioRecorder.tsx` App lines 244-247): the rest
spread keeps every field except `audioUrl`, a `null` analysis persists
as JSON null, and an undefined `exerciseFeedback` is dropped by
stringify. -/
def persistedEntryJson (e : JournalEntry) : Json :=
  .obj ([("id", .str e.id), ("date", .str e.date),
    ("transcription", .str e.transcription),
    ("analysis", match e.analysis with
      | none => .null
      | some a => analysisResultToJson a),
    ("isProcessing", .bool e.isProcessing)] ++
    (match e.exerciseFeedback with
      | none => []
      | some f => [("exerciseFeedback", feedbackToJson f)]))

/-- The serialized collection written to
`localStorage['eloquent_journal_entries']`. -/
def entriesToSave (entries : List JournalEntry) : List Json :=
  entries.map persistedEntryJson

/-! ## Invariants and sample data -/

/-- The TTS handler's single-flight invariant: exactly one synthesis
request is active while `playingTTS` is set and none otherwise. -/
def ttsInv (s : TTSState) : Prop :=
  s.inFlight = if s.playingTTS.isSome then 1 else 0

/-- Default `JournalEntry` used with `List.getD`. -/
def defaultEntry : JournalEntry :=
  { id := "", date := "", transcription := "", analysis := none,
    audioUrl := none, isProcessing := false, exerciseFeedback := none }

/-- A concrete entry holding a session-scoped audio reference. -/
def sampleEntry : JournalEntry :=
  { id := "1700000000000", date := "2026-01-01T20:00:00.000Z",
    transcription := "Bonjour, voici ma pensée du jour.",
    analysis := none, audioUrl := some "blob:https://host/abc",
    isProcessing := false, exerciseFeedback := none }

/-! ## General helper lemmas -/

/-- `getD` over a mapped list at an in-range index. -/
theorem getD_map_of_lt {α β : Type} (f : α → β) (l : List α) (i : Nat)
    (d : α) (e : β) (h : i < l.length) :
    (l.map f).getD i e = f (l.getD i d) := by
  have hm : i < (l.map f).length := by simpa using h
  rw [List.getD_eq_getElem _ _ hm, List.getD_eq_getElem _ _ h, List.getElem_map]

/-- `getD` over a mapped range at an in-range index. -/
theorem getD_map_range {β : Type} (f : Nat → β) (n i : Nat) (d : β)
    (h : i < n) : ((List.range n).map f).getD i d = f i := by
  rw [getD_map_of_lt f _ i 0 d (by simpa using h)]
  rw [List.getD_eq_getElem _ _ (by simpa using h), List.getElem_range]

/-! ## Claim theorems -/

/-- Claim C1 counterexample: a payload that parses as JSON and carries
every required field except `metrics` is not rejected —
`processAudioEntry` returns an `ok` result whose `metrics` field is
absent, instead of failing with a malformed-response error. -/
theorem processAudioEntry_accepts_missing_metrics :
    payloadMissingMetrics.get "metrics" = none ∧
    ∃ t a, processAudioEntry (some payloadMissingMetrics) = .ok (t, a) ∧
      a.metrics = none :=
  ⟨rfl, _, _, rfl, rfl⟩

/-- Claim C1 (amended): `processAudioEntry` fails only when the service
returns no payload at all (throwing `"No response from Gemini"`); a
payload that parses as JSON is passed through with no field validation,
so a payload missing the required `metrics` field yields an `ok` result
in which `metrics` is simply absent, each present field copied over
unchanged. -/
theorem processAudioEntry_no_field_validation (j : Json)
    (h : j.get "metrics" = none) :
    processAudioEntry none = .error "No response from Gemini" ∧
    ∃ t a, processAudioEntry (some j) = .ok (t, a) ∧ a.metrics = none ∧
      t = j.get "transcription" ∧ a.summary = j.get "summary" ∧
      a.eloquenceTip = j.get "eloquenceTip" := by
  exact ⟨rfl, j.get "transcription", _, rfl, h, rfl, rfl, rfl⟩

/-- Claim C1 witness: the amended statement instantiated at the
concrete metrics-free payload. -/
theorem processAudioEntry_no_field_validation_witness :
    processAudioEntry none = .error "No response from Gemini" ∧
    ∃ t a, processAudioEntry (some payloadMissingMetrics) = .ok (t, a) ∧
      a.metrics = none ∧ t = payloadMissingMetrics.get "transcription" ∧
      a.summary = payloadMissingMetrics.get "summary" ∧
      a.eloquenceTip = payloadMissingMetrics.get "eloquenceTip" :=
  processAudioEntry_no_field_validation payloadMissingMetrics rfl

/-- Claim C2: on every failure path of `handleRecordingComplete` —
encoding rejected, or the remote analysis call throwing (transport
failure, empty response, parse failure) — the entries collection after
the handler equals the collection before it: no entry is created or
modified on failure. -/
theorem handleRecordingComplete_failure_keeps_entries (s : AppState)
    (newId tempAudioUrl nowDate msg : String) :
    (handleRecordingComplete s newId tempAudioUrl nowDate
        (.encodeFailed msg)).entries = s.entries ∧
    (handleRecordingComplete s newId tempAudioUrl nowDate
        (.analysisFailed msg)).entries = s.entries ∧
    (handleRecordingComplete s newId tempAudioUrl nowDate
        (.encodeFailed msg)).selectedEntry = s.selectedEntry ∧
    (handleRecordingComplete s newId tempAudioUrl nowDate
        (.analysisFailed msg)).selectedEntry = s.selectedEntry :=
  ⟨rfl, rfl, rfl, rfl⟩

/-- The accumulated chunks flatten to the concatenation of every data
event: the `e.data.size > 0` guard only skips empty chunks, which
contribute nothing to the concatenation. -/
theorem foldl_ondataavailable_flatten (events : List (List Nat)) :
    ∀ acc : List (List Nat),
      ((events.foldl ondataavailable ⟨acc⟩).chunks).flatten
        = acc.flatten ++ events.flatten := by
  induction events with
  | nil => intro acc; simp
  | cons e rest ih =>
      intro acc
      rw [List.foldl_cons]
      by_cases hlen : 0 < e.length
      · have hstep : ondataavailable ⟨acc⟩ e = ⟨acc ++ [e]⟩ := by
          unfold ondataavailable
          rw [if_pos hlen]
        rw [hstep, ih (acc ++ [e])]
        simp
      · have he : e = [] := by
          cases e with
          | nil => rfl
          | cons x xs => simp at hlen
        have hstep : ondataavailable ⟨acc⟩ e = ⟨acc⟩ := by
          unfold ondataavailable
          rw [if_neg hlen]
        rw [hstep, ih acc, he]
        simp

/-- Claim C5: for every sequence of data events, the blob produced on
stop is the concatenation, in arrival order, of all chunks received
during the session, and its byte length is the sum of the chunk
lengths. -/
theorem onstop_blob_is_ordered_concat (events : List (List Nat)) :
    onstopBlob (sessionAfter events) = events.flatten ∧
    (onstopBlob (sessionAfter events)).length
      = (events.map List.length).sum := by
  have h := foldl_ondataavailable_flatten events []
  simp only [List.flatten_nil, List.nil_append] at h
  refine ⟨h, ?_⟩
  rw [show onstopBlob (sessionAfter events) = events.flatten from h]
  exact List.length_flatten _

/-- Claim C6 counterexample: when microphone acquisition is denied,
`startRecording` resolves normally — no error is thrown to the caller
(`thrown = none`); the failure is only logged and converted to a UI
alert. -/
theorem startRecording_denied_not_propagated :
    (startRecording recorderInit (.denied "NotAllowedError")).thrown = none ∧
    (startRecording recorderInit (.denied "NotAllowedError")).alerted = true :=
  ⟨rfl, rfl⟩

/-- Claim C6 (amended): when microphone acquisition fails,
`startRecording` catches the error inside the function: it leaves the
component state unchanged (no session starts, no stream is leaked),
shows the permission alert, and resolves without propagating any error
to its caller. -/
theorem startRecording_denied_alerts_only (s : RecorderState) (msg : String) :
    (startRecording s (.denied msg)).state = s ∧
    (startRecording s (.denied msg)).alerted = true ∧
    (startRecording s (.denied msg)).thrown = none :=
  ⟨rfl, rfl, rfl⟩

/-- Claim C7 failing trace: a second click while the first
`getUserMedia` acquisition is still pending sees `isRecording = false`
and invokes `startRecording` again; when both acquisitions resolve the
component owns two concurrently live microphone streams, and because
the second continuation overwrote `mediaRecorderRef`, a subsequent stop
click releases only one of them — the first stream is leaked. -/
theorem double_click_two_live_streams :
    (recorderAsyncRun [.click, .click, .resolveGranted,
        .resolveGranted]).liveStreams = 2 ∧
    (recorderAsyncRun [.click, .click, .resolveGranted, .resolveGranted,
        .click]).liveStreams = 1 ∧
    (recorderAsyncRun [.click, .click, .resolveGranted, .resolveGranted,
        .click]).isRecording = false :=
  ⟨rfl, rfl, rfl⟩

/-- A handler step preserves the single-flight invariant. -/
theorem ttsStep_inv (s : TTSState) (e : TTSEvent) (h : ttsInv s) :
    ttsInv (ttsStep s e) := by
  unfold ttsInv at h ⊢
  cases e with
  | play text id =>
      unfold ttsStep
      cases hflag : s.playingTTS.isSome with
      | false => simp [hflag] at h ⊢; omega
      | true => simp [hflag] at h ⊢; exact h
  | complete =>
      unfold ttsStep
      by_cases hin : 0 < s.inFlight
      · rw [if_pos hin]
        simp only [Option.isSome_none, Bool.false_eq_true, if_false]
        split at h <;> omega
      · rw [if_neg hin]
        exact h

/-- Every reachable handler state satisfies the invariant. -/
theorem ttsRun_inv (events : List TTSEvent) : ttsInv (ttsRun events) := by
  have base : ttsInv ttsInit := rfl
  rw [ttsRun]
  generalize ttsInit = s0 at base ⊢
  induction events generalizing s0 with
  | nil => exact base
  | cons e rest ih => exact ih _ (ttsStep_inv _ _ base)

/-- Claim C8: in every reachable handler state at most one synthesis
request is in flight, and while `playingTTS` is set a further call to
the play handler is an exact no-op — it issues no second request. -/
theorem tts_single_flight (events : List TTSEvent) (s : TTSState)
    (text id : String) (h : s.playingTTS.isSome = true) :
    (ttsRun events).inFlight ≤ 1 ∧ ttsStep s (.play text id) = s := by
  constructor
  · have hinv := ttsRun_inv events
    unfold ttsInv at hinv
    split at hinv <;> omega
  · unfold ttsStep
    rw [h]
    simp

/-- Claim C8 witness: the single-flight bound after an overlapping
click sequence, and the no-op of a play call in a busy state. -/
theorem tts_single_flight_witness :
    (ttsRun [TTSEvent.play "Bonjour" "sug-0",
        TTSEvent.play "Encore" "sug-1"]).inFlight ≤ 1 ∧
    ttsStep ⟨some "improved", 1⟩ (.play "Bonjour" "sug-0")
      = ⟨some "improved", 1⟩ :=
  tts_single_flight [TTSEvent.play "Bonjour" "sug-0",
    TTSEvent.play "Encore" "sug-1"] ⟨some "improved", 1⟩ "Bonjour" "sug-0" rfl

/-- The `Int16Array` view holds one sample per byte pair. -/
theorem toInt16List_length (l : List Nat) :
    (toInt16List l).length = l.length / 2 := by
  induction l using toInt16List.induct with
  | case1 => simp [toInt16List]
  | case2 b => simp [toInt16List]
  | case3 b0 b1 rest ih =>
      simp only [toInt16List, List.length_cons, ih]
      omega

/-- Sample `k` of the `Int16Array` view is the little-endian signed
16-bit value at bytes `2k, 2k+1`. -/
theorem toInt16List_getD (l : List Nat) (k : Nat) (hk : k < l.length / 2) :
    (toInt16List l).getD k 0
      = int16OfBytes (l.getD (2 * k) 0) (l.getD (2 * k + 1) 0) := by
  induction l using toInt16List.induct generalizing k with
  | case1 => simp only [List.length_nil] at hk; omega
  | case2 b => simp only [List.length_singleton] at hk; omega
  | case3 b0 b1 rest ih =>
      cases k with
      | zero => simp [toInt16List]
      | succ k2 =>
          have hk2 : k2 < rest.length / 2 := by
            simp only [List.length_cons] at hk
            omega
          have h1 : 2 * (k2 + 1) = 2 * k2 + 1 + 1 := by ring
          have h2 : 2 * (k2 + 1) + 1 = 2 * k2 + 1 + 1 + 1 := by ring
          simp only [toInt16List, List.getD_cons_succ, h1, h2]
          exact ih k2 hk2

/-- A signed 16-bit sample lies in `[-32768, 32767]`. -/
theorem int16OfBytes_bounds (lo hi : Nat) (hlo : lo < 256) (hhi : hi < 256) :
    -32768 ≤ int16OfBytes lo hi ∧ int16OfBytes lo hi ≤ 32767 := by
  simp only [int16OfBytes]
  split <;> constructor <;> omega

/-- Every `getD` read from an all-byte list is a byte (out of range
reads give the default 0). -/
theorem getD_byte_lt (l : List Nat) (h : ∀ b ∈ l, b < 256) (n : Nat) :
    l.getD n 0 < 256 := by
  by_cases hn : n < l.length
  · rw [List.getD_eq_getElem _ _ hn]
    exact h _ (List.getElem_mem hn)
  · rw [List.getD_eq_default _ _ (by omega)]
    omega

/-- Claim C3 counterexample: the empty buffer is inside the claim's
scope (its length is even and its sample count divides one channel),
yet the decode does not produce sample arrays — `createBuffer` throws a
`NotSupportedError` on the zero frame count. -/
theorem decodeAudioData_empty_throws :
    ([] : List Nat).length % 2 = 0 ∧
    ([] : List Nat).length / 2 % 1 = 0 ∧
    decodeAudioData [] 1
      = .error
        "NotSupportedError: createBuffer requires a positive channel and frame count" := by
  refine ⟨rfl, rfl, ?_⟩
  simp [decodeAudioData, toInt16List]

/-- Claim C3 (amended): on a nonempty even-length byte buffer whose
16-bit sample count divides by the channel count (so at least one full
frame), `decodeAudioData` succeeds as a pure function of the bytes: it
produces `numChannels` channels of `byteLength/2/numChannels` frames,
where channel `c`, frame `i` equals the little-endian signed 16-bit
value at sample index `i * numChannels + c` divided by 32768, a value
in `[-1, 1]`; the zero-frame case instead throws at `createBuffer`. -/
theorem decodeAudioData_pcm (data : List Nat) (numChannels : Nat)
    (hbytes : ∀ b ∈ data, b < 256)
    (hpos : 0 < data.length)
    (heven : data.length % 2 = 0)
    (hch : 0 < numChannels)
    (hdiv : data.length / 2 % numChannels = 0) :
    ∃ chans, decodeAudioData data numChannels = .ok chans ∧
      chans.length = numChannels ∧
      (∀ c, c < numChannels →
        (chans.getD c []).length = data.length / 2 / numChannels) ∧
      (∀ c i, c < numChannels → i < data.length / 2 / numChannels →
        (chans.getD c []).getD i 0
          = ((int16OfBytes (data.getD (2 * (i * numChannels + c)) 0)
              (data.getD (2 * (i * numChannels + c) + 1) 0) : Int) : ℚ)
            / 32768 ∧
        -1 ≤ (chans.getD c []).getD i 0 ∧
        (chans.getD c []).getD i 0 ≤ 1) := by
  have h16 : (toInt16List data).length = data.length / 2 :=
    toInt16List_length data
  have h16pos : 0 < (toInt16List data).length := by omega
  have hle : numChannels ≤ (toInt16List data).length := by
    rw [h16]
    exact Nat.le_of_dvd (by omega) (Nat.dvd_of_mod_eq_zero hdiv)
  have hfc : 0 < (toInt16List data).length / numChannels :=
    Nat.div_pos hle hch
  have hcond : ¬(numChannels = 0
      ∨ (toInt16List data).length / numChannels = 0) := by
    rintro (hzero | hzero)
    · omega
    · rw [hzero] at hfc
      omega
  have hok : decodeAudioData data numChannels
      = .ok ((List.range numChannels).map
          (fun channel => channelSamples (toInt16List data) numChannels
            channel ((toInt16List data).length / numChannels))) := by
    unfold decodeAudioData
    rw [if_neg (by omega), if_neg hcond]
  refine ⟨_, hok, by simp, ?_, ?_⟩
  · intro c hc
    rw [getD_map_range _ _ _ _ hc]
    simp [channelSamples, toInt16List_length]
  · intro c i hc hi
    rw [getD_map_range _ _ _ _ hc]
    have hival : i < (toInt16List data).length / numChannels := by
      rw [toInt16List_length]
      exact hi
    have hcs : (channelSamples (toInt16List data) numChannels c
          ((toInt16List data).length / numChannels)).getD i 0
        = (((toInt16List data).getD (i * numChannels + c) 0 : Int) : ℚ)
            / 32768 := by
      unfold channelSamples
      exact getD_map_range _ _ _ _ hival
    have hidx : i * numChannels + c < data.length / 2 := by
      have h1 : i + 1 ≤ data.length / 2 / numChannels := hi
      have h2 : (i + 1) * numChannels
          ≤ data.length / 2 / numChannels * numChannels :=
        Nat.mul_le_mul_right _ h1
      have h3 : data.length / 2 / numChannels * numChannels
          = data.length / 2 :=
        Nat.div_mul_cancel (Nat.dvd_of_mod_eq_zero hdiv)
      have h4 : (i + 1) * numChannels = i * numChannels + numChannels := by
        ring
      omega
    rw [hcs, toInt16List_getD data (i * numChannels + c) hidx]
    refine ⟨rfl, ?_, ?_⟩
    · have hb := (int16OfBytes_bounds _ _
        (getD_byte_lt data hbytes (2 * (i * numChannels + c)))
        (getD_byte_lt data hbytes (2 * (i * numChannels + c) + 1))).1
      have hle : (-32768 : ℚ)
          ≤ ((int16OfBytes (data.getD (2 * (i * numChannels + c)) 0)
              (data.getD (2 * (i * numChannels + c) + 1) 0) : Int) : ℚ) := by
        exact_mod_cast hb
      have := (div_le_div_iff_of_pos_right
        (show (0:ℚ) < 32768 by norm_num)).mpr hle
      norm_num at this
      linarith
    · have hb := (int16OfBytes_bounds _ _
        (getD_byte_lt data hbytes (2 * (i * numChannels + c)))
        (getD_byte_lt data hbytes (2 * (i * numChannels + c) + 1))).2
      have hle : ((int16OfBytes (data.getD (2 * (i * numChannels + c)) 0)
              (data.getD (2 * (i * numChannels + c) + 1) 0) : Int) : ℚ)
          ≤ 32768 := by
        have : ((32767 : Int) : ℚ) ≤ 32768 := by norm_num
        calc ((int16OfBytes _ _ : Int) : ℚ) ≤ ((32767 : Int) : ℚ) := by
              exact_mod_cast hb
          _ ≤ 32768 := this
      have := (div_le_one (show (0:ℚ) < 32768 by norm_num)).mpr hle
      linarith

/-- Claim C3 witness: the statement at the four-byte buffer
`[0, 0, 255, 127]`, one channel. -/
theorem decodeAudioData_pcm_witness :
    ∃ chans, decodeAudioData [0, 0, 255, 127] 1 = .ok chans ∧
      chans.length = 1 ∧
      (∀ c, c < 1 →
        (chans.getD c []).length
          = ([0, 0, 255, 127] : List Nat).length / 2 / 1) ∧
      (∀ c i, c < 1 → i < ([0, 0, 255, 127] : List Nat).length / 2 / 1 →
        (chans.getD c []).getD i 0
          = ((int16OfBytes (([0, 0, 255, 127] : List Nat).getD
                (2 * (i * 1 + c)) 0)
              (([0, 0, 255, 127] : List Nat).getD (2 * (i * 1 + c) + 1) 0)
                : Int) : ℚ) / 32768 ∧
        -1 ≤ (chans.getD c []).getD i 0 ∧
        (chans.getD c []).getD i 0 ≤ 1) :=
  decodeAudioData_pcm [0, 0, 255, 127] 1 (by decide) (by decide) (by decide)
    (by decide) (by decide)

/-- Claim C10: the PCM decode step is partial at its public interface:
every odd-length byte buffer makes the `Int16Array` view construction
throw a `RangeError`, so on such a buffer the decode never succeeds —
success requires the unstated precondition that the byte length is a
multiple of 2. -/
theorem decodeAudioData_even_precondition (data : List Nat)
    (numChannels : Nat) (hodd : data.length % 2 = 1) :
    decodeAudioData data numChannels
      = .error
        "RangeError: byte length of Int16Array should be a multiple of 2" ∧
    ∀ chans, decodeAudioData data numChannels ≠ .ok chans := by
  have herr : decodeAudioData data numChannels
      = .error
        "RangeError: byte length of Int16Array should be a multiple of 2" := by
    unfold decodeAudioData
    rw [if_pos (by omega)]
  refine ⟨herr, fun chans hok => ?_⟩
  rw [herr] at hok
  exact Except.noConfusion hok

/-- Claim C10 witness: the statement at the odd three-byte buffer. -/
theorem decodeAudioData_even_precondition_witness :
    decodeAudioData [1, 254, 3] 1
      = .error
        "RangeError: byte length of Int16Array should be a multiple of 2" ∧
    ∀ chans, decodeAudioData [1, 254, 3] 1 ≠ .ok chans :=
  decodeAudioData_even_precondition [1, 254, 3] 1 (by decide)

/-- Field content of one persisted record: no `audioUrl` key, every
other `JournalEntry` field carried over unchanged. -/
theorem persistedEntryJson_fields (e : JournalEntry) :
    (persistedEntryJson e).get "audioUrl" = none ∧
    (persistedEntryJson e).get "id" = some (.str e.id) ∧
    (persistedEntryJson e).get "date" = some (.str e.date) ∧
    (persistedEntryJson e).get "transcription"
      = some (.str e.transcription) ∧
    (persistedEntryJson e).get "analysis"
      = some ((e.analysis.map analysisResultToJson).getD .null) ∧
    (persistedEntryJson e).get "isProcessing"
      = some (.bool e.isProcessing) ∧
    (persistedEntryJson e).get "exerciseFeedback"
      = e.exerciseFeedback.map feedbackToJson := by
  obtain ⟨eid, edate, etr, ean, eau, eip, eef⟩ := e
  cases ean <;> cases eef <;>
    simp [persistedEntryJson, Json.get, lookupField]

/-- Claim C9: each record of the persisted serialization omits
`audioUrl` while preserving `id`, `date`, `transcription`, `analysis`,
`isProcessing` and `exerciseFeedback` of the corresponding entry, and
the collection keeps its length. -/
theorem entriesToSave_omits_audioUrl (entries : List JournalEntry)
    (i : Nat) (h : i < entries.length) :
    (entriesToSave entries).length = entries.length ∧
    ((entriesToSave entries).getD i .null).get "audioUrl" = none ∧
    ((entriesToSave entries).getD i .null).get "id"
      = some (.str (entries.getD i defaultEntry).id) ∧
    ((entriesToSave entries).getD i .null).get "date"
      = some (.str (entries.getD i defaultEntry).date) ∧
    ((entriesToSave entries).getD i .null).get "transcription"
      = some (.str (entries.getD i defaultEntry).transcription) ∧
    ((entriesToSave entries).getD i .null).get "analysis"
      = some (((entries.getD i defaultEntry).analysis.map
          analysisResultToJson).getD .null) ∧
    ((entriesToSave entries).getD i .null).get "isProcessing"
      = some (.bool (entries.getD i defaultEntry).isProcessing) ∧
    ((entriesToSave entries).getD i .null).get "exerciseFeedback"
      = (entries.getD i defaultEntry).exerciseFeedback.map feedbackToJson
    := by
  have hmap : (entriesToSave entries).getD i .null
      = persistedEntryJson (entries.getD i defaultEntry) :=
    getD_map_of_lt _ _ _ _ _ h
  have hf := persistedEntryJson_fields (entries.getD i defaultEntry)
  rw [hmap]
  exact ⟨by simp [entriesToSave], hf.1, hf.2.1, hf.2.2.1, hf.2.2.2.1,
    hf.2.2.2.2.1, hf.2.2.2.2.2.1, hf.2.2.2.2.2.2⟩

/-- Claim C9 witness: the statement at a one-entry collection whose
entry holds a session audio reference. -/
theorem entriesToSave_omits_audioUrl_witness :
    (entriesToSave [sampleEntry]).length = [sampleEntry].length ∧
    ((entriesToSave [sampleEntry]).getD 0 .null).get "audioUrl" = none ∧
    ((entriesToSave [sampleEntry]).getD 0 .null).get "id"
      = some (.str ([sampleEntry].getD 0 defaultEntry).id) ∧
    ((entriesToSave [sampleEntry]).getD 0 .null).get "date"
      = some (.str ([sampleEntry].getD 0 defaultEntry).date) ∧
    ((entriesToSave [sampleEntry]).getD 0 .null).get "transcription"
      = some (.str ([sampleEntry].getD 0 defaultEntry).transcription) ∧
    ((entriesToSave [sampleEntry]).getD 0 .null).get "analysis"
      = some ((([sampleEntry].getD 0 defaultEntry).analysis.map
          analysisResultToJson).getD .null) ∧
    ((entriesToSave [sampleEntry]).getD 0 .null).get "isProcessing"
      = some (.bool ([sampleEntry].getD 0 defaultEntry).isProcessing) ∧
    ((entriesToSave [sampleEntry]).getD 0 .null).get "exerciseFeedback"
      = ([sampleEntry].getD 0 defaultEntry).exerciseFeedback.map
          feedbackToJson :=
  entriesToSave_omits_audioUrl [sampleEntry] 0 (by simp)

/-- The `atob` alphabet inverts the encoding alphabet on sextets. -/
theorem base64Index_base64Char : ∀ n < 64, base64Index (base64Char n) = n := by
  decide

/-- No alphabet character is the padding character `=` (code 61). -/
theorem base64Char_ne_61 : ∀ n < 64, base64Char n ≠ 61 := by
  decide

/-- Claim C4: the transfer-encoding pair is a true round-trip — `atob`
decoding (`decode`) of the `FileReader` base64 encoding
(`blobToBase64`) returns the original byte buffer unchanged, for every
byte buffer including the empty one. -/
theorem decode_blobToBase64_roundtrip (bytes : List Nat)
    (h : ∀ b ∈ bytes, b < 256) :
    decode (blobToBase64 bytes) = bytes := by
  induction bytes using blobToBase64.induct with
  | case1 => simp [blobToBase64, decode]
  | case2 b0 =>
      have hb0 : b0 < 256 := h b0 (by simp)
      simp only [blobToBase64, decode]
      rw [if_pos trivial]
      rw [base64Index_base64Char _ (by omega),
        base64Index_base64Char _ (by omega)]
      have hx : b0 / 4 * 4 + b0 % 4 * 16 / 16 = b0 := by omega
      rw [hx]
  | case3 b0 b1 =>
      have hb0 : b0 < 256 := h b0 (by simp)
      have hb1 : b1 < 256 := h b1 (by simp)
      simp only [blobToBase64, decode]
      rw [if_neg (base64Char_ne_61 _ (by omega)), if_pos trivial]
      rw [base64Index_base64Char _ (by omega),
        base64Index_base64Char _ (by omega),
        base64Index_base64Char _ (by omega)]
      have hx : b0 / 4 * 4 + (b0 % 4 * 16 + b1 / 16) / 16 = b0 := by omega
      have hy : (b0 % 4 * 16 + b1 / 16) % 16 * 16 + b1 % 16 * 4 / 4 = b1 := by
        omega
      rw [hx, hy]
  | case4 b0 b1 b2 rest ih =>
      have hb0 : b0 < 256 := h b0 (by simp)
      have hb1 : b1 < 256 := h b1 (by simp)
      have hb2 : b2 < 256 := h b2 (by simp)
      have hrest : ∀ b ∈ rest, b < 256 := fun b hb => h b (by simp [hb])
      simp only [blobToBase64, decode]
      rw [if_neg (base64Char_ne_61 _ (by omega)),
        if_neg (base64Char_ne_61 _ (by omega))]
      rw [base64Index_base64Char _ (by omega),
        base64Index_base64Char _ (by omega),
        base64Index_base64Char _ (by omega),
        base64Index_base64Char _ (by omega)]
      have hx : b0 / 4 * 4 + (b0 % 4 * 16 + b1 / 16) / 16 = b0 := by omega
      have hy : (b0 % 4 * 16 + b1 / 16) % 16 * 16
          + (b1 % 16 * 4 + b2 / 64) / 4 = b1 := by omega
      have hz : (b1 % 16 * 4 + b2 / 64) % 4 * 64 + b2 % 64 = b2 := by omega
      rw [hx, hy, hz, ih hrest]

/-- Claim C4 witness: the round-trip at a concrete five-byte buffer
(the final partial group exercises the padded branch). -/
theorem decode_blobToBase64_roundtrip_witness :
    (∀ b ∈ ([77, 97, 110, 0, 255] : List Nat), b < 256) ∧
    decode (blobToBase64 ([77, 97, 110, 0, 255] : List Nat))
      = [77, 97, 110, 0, 255] :=
  ⟨by decide, decode_blobToBase64_roundtrip [77, 97, 110, 0, 255] (by decide)⟩

end MemoAudio
